import Mathlib

/-!
Shallow embedding of the Go package `validate` (mailstepcz/required,
src/required.go) and proofs about it.

The package has three pieces:
* the generic marker container `Required[T]` (a wrapped value plus a
  `valid` flag) with its methods, in particular the custom
  `UnmarshalJSON` and the `SetValid` quirk;
* the reflective validator `Struct`, which walks the visible fields of a
  struct (via `reflect.VisibleFields`), tests each field's address for
  the `RequiredIface` capability, and joins one error per unpopulated
  marker field with `errors.Join`;
* the convenience entry point `Parse` (JSON-decode, then `Struct`).

The ambient JSON decoder (`encoding/json`) is not part of the repository;
it is modelled as an explicit function argument `dec : Bytes → Except E T`
per the spec's "Decode collaborator" contract (decode either fails with an
error or produces a whole decoded value).
-/

namespace Validate

/-- A byte slice, as handed to Go unmarshalling functions. -/
abbrev Bytes := List Nat

/-- The marker container `Required[T]` from required.go: a wrapped value
together with the populated flag `valid` (zero value: `valid = false`). -/
structure Required (T : Type) where
  value : T
  valid : Bool
deriving Repr

/-- Method `HasValue` from required.go: returns the `valid` flag. -/
def Required.hasValue {T : Type} (r : Required T) : Bool := r.valid

/-- Method `UnmarshalJSON` from required.go, with `json.Unmarshal` made an
explicit decoder argument. The Go method mutates its receiver and returns
an `error`; here it returns the error slot and the new receiver state:
on decode failure the error is returned and the receiver is untouched, on
success the decoded value is stored and `valid` is set to `true`. -/
def Required.unmarshalJSON {T E : Type} (dec : Bytes → Except E T)
    (r : Required T) (b : Bytes) : Option E × Required T :=
  match dec b with
  | .error e => (some e, r)
  | .ok v => (none, { value := v, valid := true })

/-- Method `String` from required.go, with `fmt.Sprintf("%v", ·)` made an
explicit rendering argument: the rendered value if populated, "N/A" if not. -/
def Required.render {T : Type} (fmt : T → String) (r : Required T) : String :=
  if r.valid then fmt r.value else "N/A"

/-- Method `Value` from required.go: returns the wrapped value (the Go
version erases it to `interface{}`). -/
def Required.valueGet {T : Type} (r : Required T) : T := r.value

/-- Method `SetValid` from required.go. Note the source: the body ignores
the boolean argument and always writes `r.valid = true`. -/
def Required.setValid {T : Type} (r : Required T) (b : Bool) : Required T :=
  { r with valid := true }

/-- A write of the wrapped value through the aliases `Ptr`, `UnsafePtr`, or
`SettableValue` from required.go: all three expose the address of `r.value`
only, so a store through them changes `value` and cannot touch `valid`. -/
def Required.writeThroughPtr {T : Type} (r : Required T) (v : T) : Required T :=
  { r with value := v }

/-- Go error values produced by this package. `badType` models
`fmt.Errorf("%w: %T", ErrBadType, x)`; `fieldRequired` models the
per-field `fmt.Errorf("field ... is required", ...)`; `decodeError` is an
arbitrary error coming from the JSON decoder. `joinOne` and `joinPair` are
the two shapes `errors.Join` builds in `Struct`'s loop: joining a nil
accumulator with one non-nil error yields a join node with one child, and
joining a non-nil accumulator with one error yields a join node with two
children (the only two ways `errors.Join` is invoked in this package). -/
inductive GoError : Type where
  | badType (typeDesc : String)
  | decodeError (msg : String)
  | fieldRequired (fieldName : String) (typeName : String)
  | joinOne (e : GoError)
  | joinPair (a b : GoError)
deriving DecidableEq, Repr

/-- The single-quote character, as a string. -/
def sq : String := "\x27"

/-- Rendering of a `GoError` by its `Error()` method. A join node renders
as the newline-joined rendering of its children (`joinError.Error`). -/
def GoError.message : GoError → String
  | .badType t => "bad type: " ++ t
  | .decodeError m => m
  | .fieldRequired f ty =>
      "field " ++ sq ++ f ++ sq ++ " in " ++ sq ++ ty ++ sq ++ " is required"
  | .joinOne e => e.message
  | .joinPair a b => a.message ++ "\n" ++ b.message

/-- The individual (non-join) errors reachable from a `GoError` by
unwrapping join nodes, in rendering order: what standard error-chain
inspection (`errors.Is`/`As` walking `Unwrap() []error`) can distinguish. -/
def GoError.leaves : GoError → List GoError
  | .joinOne e => e.leaves
  | .joinPair a b => a.leaves ++ b.leaves
  | .badType t => [.badType t]
  | .decodeError m => [.decodeError m]
  | .fieldRequired f ty => [.fieldRequired f ty]

/-- Whether `errors.Is(e, ErrBadType)` holds: `badType` nodes wrap
`ErrBadType` via `%w`; join nodes are searched recursively; the other
errors do not wrap `ErrBadType`. -/
def GoError.isBadType : GoError → Bool
  | .badType _ => true
  | .joinOne e => e.isBadType
  | .joinPair a b => a.isBadType || b.isBadType
  | .decodeError _ => false
  | .fieldRequired _ _ => false

/-- Model of `errors.Join(errs, e)` as used in `Struct`'s loop: the
accumulator may be nil (`none`), the second argument never is. -/
def errorsJoin : Option GoError → GoError → Option GoError
  | none, e => some (.joinOne e)
  | some a, e => some (.joinPair a e)

/-- Kind of a field as seen through `Addr().Interface()`: a marker field
(its pointer type implements `RequiredIface`, carrying the `valid` flag the
interface's `HasValue` reports), a plain non-struct field, or a struct-typed
field (whose pointer does not implement `RequiredIface`). -/
inductive VKind : Type where
  | vrequired (hasValue : Bool)
  | vplain
  | vstruct
deriving DecidableEq, Repr

/-- A field of a Go struct value, as declared: its name, whether it is
exported, whether it is embedded (Anonymous), and its contents. `required`
is a `Required[T]` field (with the current `valid` flag), `plain` any
non-struct non-marker field, `structF` a struct-typed member whose own
fields are listed (embedded `structF` members get their fields promoted by
`reflect.VisibleFields`). The `Required` container itself is kept opaque
here (its two unexported internals are not modelled as fields). -/
inductive SField : Type where
  | required (name : String) (exported anonymous : Bool) (hasValue : Bool)
  | plain (name : String) (exported anonymous : Bool)
  | structF (name : String) (exported anonymous : Bool) (typeName : String)
      (subfields : List SField)

/-- Declared name of a field. -/
def SField.name : SField → String
  | .required n _ _ _ => n
  | .plain n _ _ => n
  | .structF n _ _ _ _ => n

/-- Whether the field is exported (its name is capitalized in Go). -/
def SField.exported : SField → Bool
  | .required _ e _ _ => e
  | .plain _ e _ => e
  | .structF _ e _ _ _ => e

/-- Whether the field is embedded (`Anonymous` in reflect). -/
def SField.anonymous : SField → Bool
  | .required _ _ a _ => a
  | .plain _ _ a => a
  | .structF _ _ a _ _ => a

/-- Whether the field is a leaf (not a struct-typed member). -/
def SField.isLeaf : SField → Bool
  | .structF _ _ _ _ _ => false
  | _ => true

/-- The kind of the field as the validator's interface test sees it. -/
def SField.vkind : SField → VKind
  | .required _ _ _ hv => .vrequired hv
  | .plain _ _ _ => .vplain
  | .structF _ _ _ _ _ => .vstruct

/-- One record produced by the `reflect.VisibleFields` walk: the field's
name, whether it has been hidden by Go's shadowing rules (`Name = ""` in
the walker), its depth (length of its index path), whether reading it is
read-only because some field on its index path is unexported (`flagRO`,
which makes `Value.Interface` panic), and its kind. -/
structure VisRec where
  name : String
  hidden : Bool
  depth : Nat
  ro : Bool
  kind : VKind
deriving DecidableEq, Repr

/-- State of the `visibleFieldsWalker`: fields collected so far and the
`byName` map (modelled as an association list searched from the front, so
a prepended entry overrides an older one, like a map update). -/
structure WalkSt where
  fields : List VisRec
  byName : List (String × Nat)
deriving DecidableEq, Repr

/-- Lookup in the walker's `byName` map. -/
def lookupName (m : List (String × Nat)) (n : String) : Option Nat :=
  match m.find? (fun p => p.1 == n) with
  | some p => some p.2
  | none => none

/-- Mark the field at position `i` as hidden (the walker's `old.Name = ""`). -/
def hideAt (l : List VisRec) (i : Nat) : List VisRec :=
  match l.get? i with
  | some r => l.set i { r with hidden := true }
  | none => l

/-- The shadowing decision of `visibleFieldsWalker.walk` for a field named
`fname` about to be recorded at depth `d`: if a field of the same name was
recorded at the same depth, both are hidden and the new one is not added;
if the old one is deeper, it is hidden and the new one is added; if the
old one is shallower, the new one is not added. Returns the updated state
and whether to add the new field. -/
def shadowStep (st : WalkSt) (fname : String) (d : Nat) : WalkSt × Bool :=
  match lookupName st.byName fname with
  | none => (st, true)
  | some oldIdx =>
    match st.fields.get? oldIdx with
    | none => (st, true)
    | some old =>
      if old.depth = d then ({ st with fields := hideAt st.fields oldIdx }, false)
      else if d < old.depth then ({ st with fields := hideAt st.fields oldIdx }, true)
      else (st, false)

/-- Record a new visible field and point `byName` at it. -/
def addVis (st : WalkSt) (r : VisRec) : WalkSt :=
  { fields := st.fields ++ [r], byName := (r.name, st.fields.length) :: st.byName }

/-- The recursive walk of `reflect.VisibleFields` over a field list:
`depth` is the length of the index path so far and `ro` whether that path
already went through an unexported field. Each field is subjected to the
shadowing decision and, when it is an embedded struct member, its
subfields are walked at the next depth (whether or not the member itself
was added, as in the Go walker). -/
def walkFields (depth : Nat) (ro : Bool) : List SField → WalkSt → WalkSt
  | [], st => st
  | .structF n ex an tn subs :: rest, st =>
    let d := depth + 1
    let fro := ro || !ex
    let p := shadowStep st n d
    let st1 := if p.2 then addVis p.1 ⟨n, false, d, fro, .vstruct⟩ else p.1
    let st2 := if an then walkFields d fro subs st1 else st1
    let _ := tn
    walkFields depth ro rest st2
  | f :: rest, st =>
    let d := depth + 1
    let fro := ro || !f.exported
    let p := shadowStep st f.name d
    let st1 := if p.2 then addVis p.1 ⟨f.name, false, d, fro, f.vkind⟩ else p.1
    walkFields depth ro rest st1

/-- Model of `reflect.VisibleFields` on a struct type with the given
declared fields: run the walker from the empty state and drop the fields
hidden by shadowing. -/
def visibleFields (fs : List SField) : List VisRec :=
  ((walkFields 0 false fs ⟨[], []⟩).fields).filter (fun r => !r.hidden)

/-- A Go struct value: its type name as `v.Type()` renders it (for example
"validate.Person") and its declared fields. -/
structure GoStruct where
  typeName : String
  fields : List SField

/-- The dynamic shapes an `interface{}` argument of `Struct` can have,
each carrying the `%T` rendering of its dynamic type: a non-nil pointer to
a struct, a nil pointer (whose `Elem()` has kind Invalid), a non-nil
pointer to a non-struct, or a non-pointer value. -/
inductive GoValue : Type where
  | ptrToStruct (typeDesc : String) (s : GoStruct)
  | nilPtr (typeDesc : String)
  | ptrToNonStruct (typeDesc : String)
  | nonPtr (typeDesc : String)

/-- Result of running a Go function that may panic: either a panic with
its message, or a normal return of an error value (possibly nil). -/
inductive Outcome : Type where
  | panicked (msg : String)
  | ok (err : Option GoError)
deriving DecidableEq, Repr

/-- The message of the panic raised by `reflect.Value.Interface` on a
value obtained through an unexported field. -/
def roPanicMsg : String :=
  "reflect.Value.Interface: cannot return value obtained from unexported field or method"

/-- The loop body of `Struct` over the visible fields: for each field,
`FieldByIndex(f.Index).Addr().Interface()` panics when the field is
read-only; otherwise the interface assertion succeeds exactly for marker
fields, and an unpopulated marker joins a `fieldRequired` error into the
accumulator. -/
def structLoop (tyName : String) : List VisRec → Option GoError → Outcome
  | [], errs => .ok errs
  | vf :: rest, errs =>
    if vf.ro then .panicked roPanicMsg
    else
      match vf.kind with
      | .vrequired hv =>
        if hv then structLoop tyName rest errs
        else structLoop tyName rest (errorsJoin errs (.fieldRequired vf.name tyName))
      | .vplain => structLoop tyName rest errs
      | .vstruct => structLoop tyName rest errs

/-- The function `Struct` from required.go: reject anything that is not a
non-nil pointer to a struct with a `bad type` error carrying the `%T`
description, then walk the visible fields accumulating the per-field
errors with `errors.Join`. -/
def Struct : GoValue → Outcome
  | .nonPtr t => .ok (some (.badType t))
  | .nilPtr t => .ok (some (.badType t))
  | .ptrToNonStruct t => .ok (some (.badType t))
  | .ptrToStruct _ s => structLoop s.typeName (visibleFields s.fields) none

/-- The function `Parse` from required.go: its argument models the result
of `json.NewDecoder(r).Decode(obj)` — the decode error slot together with
the state of `obj` after the decode call. A decode error is returned as
is; otherwise `Struct` runs on the decoded object. -/
def Parse (decodeResult : Option GoError × GoValue) : Outcome :=
  match decodeResult with
  | (some e, _) => .ok (some e)
  | (none, obj) => Struct obj

/-- Names of the visible fields that are unpopulated markers, in order:
the fields `Struct` emits an error for. -/
def missingOf (vfs : List VisRec) : List String :=
  (vfs.filter (fun r =>
    match r.kind with
    | .vrequired hv => !hv
    | _ => false)).map VisRec.name

/-- Names of the declared fields of a flat struct that are unpopulated
markers, in order. -/
def missingNames (fs : List SField) : List String :=
  (fs.filter (fun f =>
    match f with
    | .required _ _ _ hv => !hv
    | _ => false)).map SField.name

/-- The error value `Struct`'s loop accumulates for the given missing
field names: a left fold of `errors.Join` starting from nil. -/
def buildErr (tyName : String) (ms : List String) : Option GoError :=
  ms.foldl (fun acc n => errorsJoin acc (.fieldRequired n tyName)) none

/-!
Auxiliary lemmas about the validator loop, the error fold and the
visible-fields walk.
-/

/-- On a list of visible fields none of which is read-only, the validator
loop returns normally, accumulating one joined error per unpopulated
marker field. -/
lemma structLoop_ok (tn : String) (vfs : List VisRec) :
    ∀ errs : Option GoError, (∀ r ∈ vfs, r.ro = false) →
    structLoop tn vfs errs =
      .ok ((missingOf vfs).foldl (fun acc n => errorsJoin acc (.fieldRequired n tn)) errs) := by
  induction vfs with
  | nil => intro errs _; simp [structLoop, missingOf]
  | cons r rest ih =>
    intro errs h
    have hr : r.ro = false := h r (List.mem_cons_self r rest)
    have hrest : ∀ x ∈ rest, x.ro = false := fun x hx => h x (List.mem_cons_of_mem r hx)
    obtain ⟨n, hid, d, ro, k⟩ := r
    simp only at hr
    subst hr
    cases k with
    | vrequired hv =>
      cases hv with
      | true => simpa [structLoop, missingOf] using ih errs hrest
      | false => simpa [structLoop, missingOf] using ih _ hrest
    | vplain => simpa [structLoop, missingOf] using ih errs hrest
    | vstruct => simpa [structLoop, missingOf] using ih errs hrest

/-- If some visible field is read-only, the validator loop panics with the
`reflect.Value.Interface` message, whatever the accumulator holds. -/
lemma structLoop_panic (tn : String) (vfs : List VisRec) :
    ∀ errs : Option GoError, (∃ r ∈ vfs, r.ro = true) →
    structLoop tn vfs errs = .panicked roPanicMsg := by
  induction vfs with
  | nil => intro errs h; simp at h
  | cons r rest ih =>
    intro errs h
    cases hr : r.ro with
    | true =>
      obtain ⟨n, hid, d, ro, k⟩ := r
      simp only at hr
      subst hr
      simp [structLoop]
    | false =>
      have hrest : ∃ x ∈ rest, x.ro = true := by
        obtain ⟨x, hx, hxro⟩ := h
        rcases List.mem_cons.mp hx with rfl | hx2
        · rw [hr] at hxro; exact absurd hxro (by simp)
        · exact ⟨x, hx2, hxro⟩
      obtain ⟨n, hid, d, ro, k⟩ := r
      simp only at hr
      subst hr
      cases k with
      | vrequired hv =>
        cases hv with
        | true => simpa [structLoop] using ih _ hrest
        | false => simpa [structLoop] using ih _ hrest
      | vplain => simpa [structLoop] using ih _ hrest
      | vstruct => simpa [structLoop] using ih _ hrest

/-- Characterization of the `errors.Join` fold from a non-nil accumulator:
the result keeps the accumulator's leaves followed by one `fieldRequired`
leaf per name, and its rendering extends the accumulator's with one
newline-separated piece per name. -/
lemma foldJoin_some (tn : String) (ms : List String) : ∀ e0 : GoError,
    ∃ e, ms.foldl (fun acc n => errorsJoin acc (.fieldRequired n tn)) (some e0) = some e ∧
      e.leaves = e0.leaves ++ ms.map (fun n => GoError.fieldRequired n tn) ∧
      e.message = ms.foldl (fun acc n => acc ++ "\n" ++ (GoError.fieldRequired n tn).message)
        e0.message := by
  induction ms with
  | nil => intro e0; exact ⟨e0, rfl, by simp, rfl⟩
  | cons n rest ih =>
    intro e0
    obtain ⟨e, he, hl, hm⟩ := ih (.joinPair e0 (.fieldRequired n tn))
    refine ⟨e, ?_, ?_, ?_⟩
    · simpa [errorsJoin] using he
    · rw [hl]; simp [GoError.leaves]
    · rw [hm]; simp [GoError.message]

/-- The `go` worker of `String.intercalate` is a left fold. -/
lemma intercalate_go_foldl (s : String) (ms : List String) : ∀ acc : String,
    String.intercalate.go acc s ms = ms.foldl (fun a b => a ++ s ++ b) acc := by
  induction ms with
  | nil => intro acc; rfl
  | cons m rest ih => intro acc; simp [String.intercalate.go, ih]

/-- `String.intercalate` on a nonempty list as a left fold over the tail. -/
lemma intercalate_cons_foldl (s m : String) (ms : List String) :
    String.intercalate s (m :: ms) = ms.foldl (fun a b => a ++ s ++ b) m := by
  simp [String.intercalate, intercalate_go_foldl]

/-- The error `Struct` builds for a nonempty list of missing field names:
its leaves are exactly one `fieldRequired` per name in order, and it
renders as the newline-joined concatenation of the individual messages. -/
lemma buildErr_cons (tn n : String) (rest : List String) :
    ∃ e, buildErr tn (n :: rest) = some e ∧
      e.leaves = (n :: rest).map (fun m => GoError.fieldRequired m tn) ∧
      e.message = String.intercalate "\n"
        ((n :: rest).map (fun m => (GoError.fieldRequired m tn).message)) := by
  obtain ⟨e, he, hl, hm⟩ := foldJoin_some tn rest (.joinOne (.fieldRequired n tn))
  refine ⟨e, ?_, ?_, ?_⟩
  · simpa [buildErr, errorsJoin] using he
  · rw [hl]; simp [GoError.leaves]
  · rw [hm, List.map_cons, intercalate_cons_foldl, List.foldl_map]
    simp [GoError.message]

/-- The visible-field record of a depth-1 leaf field. -/
def leafVis (f : SField) : VisRec := ⟨f.name, false, 1, !f.exported, f.vkind⟩

/-- Prepending a differently-named entry leaves a `byName` lookup alone. -/
lemma lookupName_cons_ne (k : String) (i : Nat) (m : List (String × Nat))
    (n : String) (h : ¬ k = n) : lookupName ((k, i) :: m) n = lookupName m n := by
  have hb : (k == n) = false := by simp [h]
  simp [lookupName, List.find?, hb]

/-- The walk of a list of leaf fields with pairwise distinct names, none
colliding with the state's `byName` map, appends one unhidden depth-1
record per field, in declaration order. -/
lemma walkFields_flat (fs : List SField) : ∀ st : WalkSt,
    (∀ f ∈ fs, f.isLeaf = true) →
    ((fs.map SField.name).Nodup) →
    (∀ f ∈ fs, lookupName st.byName f.name = none) →
    (walkFields 0 false fs st).fields = st.fields ++ fs.map leafVis := by
  induction fs with
  | nil => intro st _ _ _; simp [walkFields]
  | cons f rest ih =>
    intro st hleaf hnd hfresh
    have hnotin : ∀ g ∈ rest, ¬ f.name = g.name := by
      intro g hg heq
      exact (List.nodup_cons.mp (by simpa using hnd)).1
        (List.mem_map.mpr ⟨g, hg, heq.symm⟩)
    have hndrest : (rest.map SField.name).Nodup :=
      (List.nodup_cons.mp (by simpa using hnd)).2
    have hleafrest : ∀ g ∈ rest, g.isLeaf = true :=
      fun g hg => hleaf g (List.mem_cons_of_mem f hg)
    have hfreshf : lookupName st.byName f.name = none :=
      hfresh f (List.mem_cons_self f rest)
    have hfreshrest : ∀ g ∈ rest,
        lookupName (addVis st (leafVis f)).byName g.name = none := by
      intro g hg
      show lookupName ((f.name, st.fields.length) :: st.byName) g.name = none
      rw [lookupName_cons_ne _ _ _ _ (hnotin g hg)]
      exact hfresh g (List.mem_cons_of_mem f hg)
    have hf : f.isLeaf = true := hleaf f (List.mem_cons_self f rest)
    have hstep : walkFields 0 false (f :: rest) st =
        walkFields 0 false rest (addVis st (leafVis f)) := by
      cases f with
      | structF n ex an tn subs => simp [SField.isLeaf] at hf
      | required n ex an hv =>
        have hff : lookupName st.byName n = none := hfreshf
        simp [walkFields, shadowStep, hff, leafVis, SField.name,
          SField.exported, SField.vkind]
      | plain n ex an =>
        have hff : lookupName st.byName n = none := hfreshf
        simp [walkFields, shadowStep, hff, leafVis, SField.name,
          SField.exported, SField.vkind]
    rw [hstep, ih (addVis st (leafVis f)) hleafrest hndrest hfreshrest]
    simp [addVis]

/-- On a flat struct — leaf fields only, pairwise distinct names — the
visible fields are exactly the declared fields, in order, at depth 1. -/
lemma visibleFields_flat (fs : List SField)
    (hleaf : ∀ f ∈ fs, f.isLeaf = true)
    (hnd : (fs.map SField.name).Nodup) :
    visibleFields fs = fs.map leafVis := by
  rw [visibleFields, walkFields_flat fs ⟨[], []⟩ hleaf hnd (fun f _ => rfl)]
  rw [List.nil_append, List.filter_eq_self.mpr]
  intro r hr
  obtain ⟨f, _, rfl⟩ := List.mem_map.mp hr
  rfl

/-- The unpopulated markers among the depth-1 records of leaf fields are
the declared unpopulated marker fields. -/
lemma missingOf_leafVis (fs : List SField) :
    missingOf (fs.map leafVis) = missingNames fs := by
  induction fs with
  | nil => rfl
  | cons f rest ih =>
    cases f with
    | required n ex an hv =>
      cases hv <;>
        simpa [missingOf, missingNames, leafVis, SField.vkind, SField.name,
          List.filter] using ih
    | plain n ex an =>
      simpa [missingOf, missingNames, leafVis, SField.vkind, SField.name,
        List.filter] using ih
    | structF n ex an tn subs =>
      simpa [missingOf, missingNames, leafVis, SField.vkind, SField.name,
        List.filter] using ih

/-- Depth-1 records of exported leaf fields are not read-only. -/
lemma leafVis_ro (fs : List SField) (hexp : ∀ f ∈ fs, f.exported = true) :
    ∀ r ∈ fs.map leafVis, r.ro = false := by
  intro r hr
  obtain ⟨f, hf, rfl⟩ := List.mem_map.mp hr
  simp [leafVis, hexp f hf]

/-!
Theorems about the embedded program, one per claim, with witnesses where
the statement carries hypotheses.
-/

/-- C5: for every type T and every payload on which the ambient decoder
succeeds, `UnmarshalJSON` on a `Required[T]` returns no error, sets the
populated flag to true and stores the decoded value — whatever that value
is, in particular also when it equals T's zero value, so a present-but-zero
field is distinguished from an absent one. -/
theorem unmarshalJSON_wellformed {T E : Type} (dec : Bytes → Except E T)
    (r : Required T) (b : Bytes) (v : T) (h : dec b = .ok v) :
    Required.unmarshalJSON dec r b = (none, { value := v, valid := true }) ∧
    ((Required.unmarshalJSON dec r b).2).hasValue = true ∧
    ((Required.unmarshalJSON dec r b).2).valueGet = v := by
  simp [Required.unmarshalJSON, h, Required.hasValue, Required.valueGet]

/-- Witness for C5, at a decoder that returns the zero value of Nat for
the payload: the present-but-zero container is populated. -/
theorem unmarshalJSON_wellformed_witness :
    Required.unmarshalJSON (fun _ => (Except.ok (0 : Nat) : Except String Nat))
      ⟨7, false⟩ [48] = (none, { value := 0, valid := true }) ∧
    ((Required.unmarshalJSON (fun _ => (Except.ok (0 : Nat) : Except String Nat))
      ⟨7, false⟩ [48]).2).hasValue = true ∧
    ((Required.unmarshalJSON (fun _ => (Except.ok (0 : Nat) : Except String Nat))
      ⟨7, false⟩ [48]).2).valueGet = 0 :=
  unmarshalJSON_wellformed (fun _ => (Except.ok (0 : Nat) : Except String Nat))
    ⟨7, false⟩ [48] 0 rfl

/-- C6: for every payload on which the ambient decoder fails,
`UnmarshalJSON` returns the underlying decode error verbatim and the
container is returned exactly as it was: the populated flag and the stored
value are both unchanged. -/
theorem unmarshalJSON_failure {T E : Type} (dec : Bytes → Except E T)
    (r : Required T) (b : Bytes) (e : E) (h : dec b = .error e) :
    Required.unmarshalJSON dec r b = (some e, r) := by
  simp [Required.unmarshalJSON, h]

/-- Witness for C6: a failing decoder leaves the container untouched. -/
theorem unmarshalJSON_failure_witness :
    Required.unmarshalJSON (fun _ => (Except.error "unexpected end of JSON input" : Except String Nat))
      ⟨3, false⟩ [123] = (some "unexpected end of JSON input", ⟨3, false⟩) :=
  unmarshalJSON_failure (fun _ => Except.error "unexpected end of JSON input")
    ⟨3, false⟩ [123] "unexpected end of JSON input" rfl

/-- C7: `SetValid` sets the populated flag to true whatever boolean it is
handed: after `r.SetValid(b)`, `HasValue()` is true for both values of
`b`; the operation never clears the flag. -/
theorem setValid_always_true {T : Type} (r : Required T) (b : Bool) :
    (r.setValid b).hasValue = true := rfl

/-- C3: on every argument that is not a non-nil pointer to a struct — a
non-pointer value, a nil pointer, or a pointer to a non-struct — `Struct`
returns the bad-argument error carrying the argument's `%T` type
description; that error matches `ErrBadType` under error-chain inspection,
while a missing-field error never does. -/
theorem struct_badtype_args (t : String) :
    Struct (.nonPtr t) = .ok (some (.badType t)) ∧
    Struct (.nilPtr t) = .ok (some (.badType t)) ∧
    Struct (.ptrToNonStruct t) = .ok (some (.badType t)) ∧
    (GoError.badType t).isBadType = true ∧
    (∀ f tyn, (GoError.fieldRequired f tyn).isBadType = false) ∧
    (GoError.badType t).message = "bad type: " ++ t :=
  ⟨rfl, rfl, rfl, rfl, fun _ _ => rfl, rfl⟩

/-- C8: `Parse` short-circuits on decode errors — when decoding fails it
returns the decode error and its result does not depend on the decoded
object at all (so the field-presence check is never consulted) — and when
decoding succeeds it returns exactly the result of `Struct` on the
destination. -/
theorem parse_short_circuit :
    (∀ (e : GoError) (obj : GoValue), Parse (some e, obj) = .ok (some e)) ∧
    (∀ (e : GoError) (obj obj2 : GoValue), Parse (some e, obj) = Parse (some e, obj2)) ∧
    (∀ obj : GoValue, Parse (none, obj) = Struct obj) :=
  ⟨fun _ _ => rfl, fun _ _ _ => rfl, fun _ => rfl⟩

/-- C1: on a pointer to a flat struct value — leaf fields with pairwise
distinct names, all exported — `Struct` returns exactly the error built
from the unpopulated marker fields: the failure set is empty (nil error)
iff every marker is populated, and otherwise has exactly one
`fieldRequired` leaf per unpopulated marker, in declaration order; plain
non-marker fields never contribute an entry and do not affect the result,
which is a function of the unpopulated marker names alone. -/
theorem struct_flat_missing (td tn : String) (fs : List SField)
    (hleaf : ∀ f ∈ fs, f.isLeaf = true)
    (hexp : ∀ f ∈ fs, f.exported = true)
    (hnd : (fs.map SField.name).Nodup) :
    Struct (.ptrToStruct td ⟨tn, fs⟩) = .ok (buildErr tn (missingNames fs)) ∧
    (buildErr tn (missingNames fs) = none ↔ missingNames fs = []) ∧
    (∀ e, buildErr tn (missingNames fs) = some e →
      e.leaves = (missingNames fs).map (fun n => GoError.fieldRequired n tn)) := by
  have hvis : visibleFields fs = fs.map leafVis := visibleFields_flat fs hleaf hnd
  refine ⟨?_, ?_, ?_⟩
  · show structLoop tn (visibleFields fs) none = _
    rw [hvis, structLoop_ok tn _ none (leafVis_ro fs hexp), missingOf_leafVis]
    rfl
  · cases hms : missingNames fs with
    | nil => simp [buildErr]
    | cons n rest =>
      obtain ⟨e, he, _, _⟩ := buildErr_cons tn n rest
      simp [he]
  · intro e he
    cases hms : missingNames fs with
    | nil => rw [hms] at he; simp [buildErr] at he
    | cons n rest =>
      obtain ⟨e2, he2, hl2, _⟩ := buildErr_cons tn n rest
      rw [hms] at he
      rw [he2] at he
      cases he
      exact hl2

/-- Witness for C1 at the test scenario: Name populated, Age unpopulated,
plus a plain field; exactly one failure entry, for Age. -/
theorem struct_flat_missing_witness :
    Struct (.ptrToStruct "*validate.Person" ⟨"validate.Person",
      [.required "Name" true false true, .required "Age" true false false,
       .plain "Note" true false]⟩) =
      .ok (buildErr "validate.Person" (missingNames
        [.required "Name" true false true, .required "Age" true false false,
         .plain "Note" true false])) ∧
    (buildErr "validate.Person" (missingNames
        [.required "Name" true false true, .required "Age" true false false,
         .plain "Note" true false]) = none ↔
      missingNames [.required "Name" true false true,
        .required "Age" true false false, .plain "Note" true false] = []) ∧
    (∀ e, buildErr "validate.Person" (missingNames
        [.required "Name" true false true, .required "Age" true false false,
         .plain "Note" true false]) = some e →
      e.leaves = (missingNames [.required "Name" true false true,
        .required "Age" true false false, .plain "Note" true false]).map
        (fun n => GoError.fieldRequired n "validate.Person")) :=
  struct_flat_missing "*validate.Person" "validate.Person"
    [.required "Name" true false true, .required "Age" true false false,
     .plain "Note" true false]
    (by decide) (by decide) (by decide)

/-- C2: a marker field declared in an embedded struct member is promoted
by the visible-fields walk and validated exactly as if it were declared
directly in the outer struct: `Struct` returns the same outcome on both,
namely no error when the marker is populated and the single-field error
naming the outer struct's type when it is not. -/
theorem struct_embedded_promoted (td tn mn itn fn : String) (hv : Bool)
    (hne : ¬ fn = mn) :
    Struct (.ptrToStruct td ⟨tn,
        [.structF mn true true itn [.required fn true false hv]]⟩) =
      Struct (.ptrToStruct td ⟨tn, [.required fn true false hv]⟩) ∧
    Struct (.ptrToStruct td ⟨tn, [.required fn true false hv]⟩) =
      .ok (if hv then none else some (.joinOne (.fieldRequired fn tn))) := by
  have hbeq : (mn == fn) = false := by simp; exact fun h => hne h.symm
  constructor <;> cases hv <;>
    simp [Struct, visibleFields, walkFields, shadowStep, lookupName,
      List.find?, addVis, hideAt, structLoop, errorsJoin, SField.name,
      SField.exported, SField.vkind, hbeq]

/-- Witness for C2: member M embeds field X; with X unpopulated both the
embedded and the direct layout produce the same single failure for X. -/
theorem struct_embedded_promoted_witness :
    (Struct (.ptrToStruct "*p.Outer" ⟨"p.Outer",
        [.structF "M" true true "p.Inner" [.required "X" true false false]]⟩) =
      Struct (.ptrToStruct "*p.Outer" ⟨"p.Outer", [.required "X" true false false]⟩)) ∧
    Struct (.ptrToStruct "*p.Outer" ⟨"p.Outer", [.required "X" true false false]⟩) =
      .ok (if false then none else some (.joinOne (.fieldRequired "X" "p.Outer"))) :=
  struct_embedded_promoted "*p.Outer" "p.Outer" "M" "p.Inner" "X" false (by decide)

/-- C4: whenever the failure set is non-empty (and every visible field is
accessible), the combined error `Struct` returns renders as the
newline-joined concatenation of one message per failing field, each of
the exact form `field '<fieldName>' in '<enclosingTypeName>' is required`,
and each individual failure remains distinguishable as a leaf of the
join tree under error-chain unwrapping. -/
theorem struct_joined_message (td tn : String) (fs : List SField)
    (hro : ∀ r ∈ visibleFields fs, r.ro = false)
    (hne : ¬ missingOf (visibleFields fs) = []) :
    ∃ e, Struct (.ptrToStruct td ⟨tn, fs⟩) = .ok (some e) ∧
      e.message = String.intercalate "\n" ((missingOf (visibleFields fs)).map
        (fun n => "field " ++ sq ++ n ++ sq ++ " in " ++ sq ++ tn ++ sq ++ " is required")) ∧
      e.leaves = (missingOf (visibleFields fs)).map
        (fun n => GoError.fieldRequired n tn) := by
  cases hms : missingOf (visibleFields fs) with
  | nil => exact absurd hms hne
  | cons n rest =>
    obtain ⟨e, he, hl, hm⟩ := buildErr_cons tn n rest
    refine ⟨e, ?_, ?_, ?_⟩
    · show structLoop tn (visibleFields fs) none = _
      rw [structLoop_ok tn _ none hro, hms]
      rw [show (n :: rest).foldl
        (fun acc m => errorsJoin acc (.fieldRequired m tn)) none =
          buildErr tn (n :: rest) from rfl, he]
    · rw [hm]; simp [GoError.message]
    · exact hl

/-- Witness for C4: two unpopulated markers A and B produce the combined
error whose message is the two messages joined by a newline and whose
leaves are the two individual failures. -/
theorem struct_joined_message_witness :
    ∃ e, Struct (.ptrToStruct "*p.P" ⟨"p.P",
        [.required "A" true false false, .required "B" true false false,
         .plain "C" true false]⟩) = .ok (some e) ∧
      e.message = String.intercalate "\n" ((missingOf (visibleFields
        [.required "A" true false false, .required "B" true false false,
         .plain "C" true false])).map
        (fun n => "field " ++ sq ++ n ++ sq ++ " in " ++ sq ++ "p.P" ++ sq ++ " is required")) ∧
      e.leaves = (missingOf (visibleFields
        [.required "A" true false false, .required "B" true false false,
         .plain "C" true false])).map (fun n => GoError.fieldRequired n "p.P") :=
  struct_joined_message "*p.P" "p.P"
    [.required "A" true false false, .required "B" true false false,
     .plain "C" true false]
    (by simp [visibleFields, walkFields, shadowStep, lookupName, List.find?, addVis,
      hideAt, SField.name, SField.exported, SField.anonymous, SField.vkind])
    (by simp [missingOf, visibleFields, walkFields, shadowStep, lookupName, List.find?,
      addVis, hideAt, SField.name, SField.exported, SField.anonymous, SField.vkind])

/-- The public operations on a `Required[T]` container, as state
transformers: `UnmarshalJSON` with an arbitrary decoder and payload,
`SetValid` with an arbitrary flag, the read-only operations (`String`,
`HasValue`, `Value`, `Ptr`, `UnsafePtr`, `RequiredType`, `SettableValue`
— none of which changes the container), and a store of a new wrapped
value through the pointer any of `Ptr`, `UnsafePtr` or `SettableValue`
exposes (which aliases `value` only, never `valid`). -/
inductive PubOp (T E : Type) : Type where
  | unmarshal (dec : Bytes → Except E T) (b : Bytes)
  | setValidOp (b : Bool)
  | readOp
  | writeValue (v : T)

/-- The state transition of one public operation. -/
def applyOp {T E : Type} (r : Required T) : PubOp T E → Required T
  | .unmarshal dec b => (Required.unmarshalJSON dec r b).2
  | .setValidOp b => r.setValid b
  | .readOp => r
  | .writeValue v => r.writeThroughPtr v

/-- C9: the populated flag is a one-way latch under the public interface:
once `HasValue()` is true, no sequence of public operations — decode
successes or failures, `SetValid` with any argument, the read-only
accessors, stores through the exposed pointers — ever makes it false
again. -/
theorem hasValue_latch {T E : Type} (ops : List (PubOp T E)) (r : Required T)
    (h : r.hasValue = true) : (ops.foldl applyOp r).hasValue = true := by
  induction ops generalizing r with
  | nil => exact h
  | cons op rest ih =>
    rw [List.foldl_cons]
    apply ih
    cases op with
    | unmarshal dec b =>
      show ((Required.unmarshalJSON dec r b).2).hasValue = true
      rw [Required.unmarshalJSON]
      cases dec b with
      | error e => exact h
      | ok v => rfl
    | setValidOp b => rfl
    | readOp => exact h
    | writeValue v => exact h

/-- Witness for C9: starting from a populated container, a read, a store
through the pointer, SetValid(false), a failing decode and a successful
decode leave the flag true. -/
theorem hasValue_latch_witness :
    (⟨0, true⟩ : Required Nat).hasValue = true ∧
    (([.readOp, .writeValue 9, .setValidOp false,
       .unmarshal (fun _ => .error "oops") [1],
       .unmarshal (fun _ => .ok 2) []] : List (PubOp Nat String)).foldl
      applyOp ⟨0, true⟩).hasValue = true :=
  ⟨rfl, hasValue_latch
    [.readOp, .writeValue 9, .setValidOp false,
     .unmarshal (fun _ => .error "oops") [1],
     .unmarshal (fun _ => .ok 2) []] ⟨0, true⟩ rfl⟩

/-- C10: `Struct` is panic-free exactly on structs all of whose visible
fields are reachable through exported fields: when every visible field is
accessible it returns normally, and when any visible field — marker or
plain — is read-only because of an unexported field on its path, taking
its address and converting it to an interface to test the capability
contract panics instead of returning an error. -/
theorem struct_ro_behavior (td tn : String) (fs : List SField) :
    ((∀ r ∈ visibleFields fs, r.ro = false) →
      ∃ res, Struct (.ptrToStruct td ⟨tn, fs⟩) = .ok res) ∧
    ((∃ r ∈ visibleFields fs, r.ro = true) →
      Struct (.ptrToStruct td ⟨tn, fs⟩) = .panicked roPanicMsg) := by
  constructor
  · intro h
    exact ⟨_, structLoop_ok tn (visibleFields fs) none h⟩
  · intro h
    exact structLoop_panic tn (visibleFields fs) none h

/-- Witness for C10: a struct whose fields are all exported validates
normally, while a struct containing an unexported plain field makes
`Struct` panic even though its marker field is populated. -/
theorem struct_ro_behavior_witness :
    (∃ res, Struct (.ptrToStruct "*p.T" ⟨"p.T",
      [.required "Name" true false true]⟩) = .ok res) ∧
    Struct (.ptrToStruct "*p.S" ⟨"p.S",
      [.plain "secret" false false, .required "Name" true false true]⟩) =
      .panicked roPanicMsg :=
  ⟨(struct_ro_behavior "*p.T" "p.T" [.required "Name" true false true]).1
     (by simp [visibleFields, walkFields, shadowStep, lookupName, List.find?, addVis,
       hideAt, SField.name, SField.exported, SField.anonymous, SField.vkind]),
   (struct_ro_behavior "*p.S" "p.S"
     [.plain "secret" false false, .required "Name" true false true]).2
     (by simp [visibleFields, walkFields, shadowStep, lookupName, List.find?, addVis,
       hideAt, SField.name, SField.exported, SField.anonymous, SField.vkind])⟩

end Validate
